import Mathlib

/-!
Verification of the saas-starter-stack server against its specification.

The development shallowly embeds the relevant JavaScript functions:

* the analytics module (`anonymizeIP`, `isBot`, `detectBrowser`, `detectOS`,
  `detectDevice`, `cleanReferrer`, `trackPageview`, `getStats`,
  `cleanupOldData`): JavaScript strings are modelled as `List Char`,
  `String.prototype.split` by `splitOnChar`, case-insensitive literal regex
  tests by substring search on lower-cased text, and the SQLite pageview
  table by a `List Pageview` with integer timestamps;
* the Stripe webhook tax reconciliation in `app.post` for the `/webhook`
  route: monetary cent amounts are integers, tax-rate percentages are exact
  rationals, and the JavaScript `Math.round` of a quotient is the
  mathematical `round` of the exact rational quotient;
* the Zoho tax-identifier lookup inside `createZohoInvoice`.

Definitions are written to be executable so that concrete inputs evaluate
by `decide`.
-/

/-! ## List-of-characters string utilities (JavaScript semantics) -/

/-- Models `String.prototype.split` with a one-character separator:
`"a..b".split('.') = ["a","","b"]`, `"".split('.') = [""]`. -/
def splitOnChar (c : Char) : List Char → List (List Char)
  | [] => [[]]
  | x :: xs =>
    if x = c then [] :: splitOnChar c xs
    else
      match splitOnChar c xs with
      | [] => [[x]]
      | p :: ps => (x :: p) :: ps

/-- Boolean test that `p` is an initial segment of `s`. -/
def startsWithL : List Char → List Char → Bool
  | _, [] => true
  | [], _ :: _ => false
  | a :: s, b :: p => if a = b then startsWithL s p else false

/-- Boolean substring search: does `pat` occur contiguously in `s`?
Models `String.prototype.includes` and a literal regex test. -/
def containsL (s pat : List Char) : Bool :=
  startsWithL s pat ||
    match s with
    | [] => false
    | _ :: t => containsL t pat

/-- Lower-case a string character by character (`toLowerCase`, ASCII). -/
def lowerStr (s : List Char) : List Char := s.map Char.toLower

/-- Upper-case a string character by character (`toUpperCase`, ASCII). -/
def upperStr (s : List Char) : List Char := s.map Char.toUpper

/-- Case-insensitive literal regex test, as in `/pat/i.test(ua)`:
the pattern is stored lower-case and searched in the lower-cased text. -/
def testCI (s pat : List Char) : Bool := containsL (lowerStr s) pat

/-! ## anonymizeIP (analytics module, lines 49-65) -/

/-- Embeds `anonymizeIP`: a falsy (empty) input gives `"unknown"`; a string
with exactly four dot-separated parts keeps the first three and replaces the
last by `"xxx"`; otherwise a string with more than three colon-separated
parts keeps the first three joined by `':'` followed by `"::xxx"`; anything
else gives `"unknown"`. -/
def anonymizeIP (ip : List Char) : List Char :=
  if ip = [] then ("unknown".data)
  else
    let parts := splitOnChar '.' ip
    if parts.length = 4 then
      parts.getD 0 [] ++ ('.' :: (parts.getD 1 [] ++ ('.' :: (parts.getD 2 [] ++ (".xxx".data)))))
    else
      let v6parts := splitOnChar ':' ip
      if v6parts.length > 3 then
        List.intercalate [':'] (v6parts.take 3) ++ ("::xxx".data)
      else ("unknown".data)

/-! ## Bot detection and classification (analytics module, lines 70-151) -/

/-- Match of `/p.*q/` on `s`: an occurrence of `p` with an occurrence of `q`
somewhere at or after its end. -/
def containsThenL (s p q : List Char) : Bool :=
  (startsWithL s p && containsL (s.drop p.length) q) ||
    match s with
    | [] => false
    | _ :: t => containsThenL t p q

/-- Match of `/android(?!.*mobile)/` on the (already lower-cased) `s`: an
occurrence of `"android"` with no occurrence of `"mobile"` after it. -/
def androidNoMobileAfter : List Char → Bool
  | [] => false
  | x :: t =>
    (startsWithL (x :: t) ("android".data) && !containsL ((x :: t).drop 7) ("mobile".data)) ||
      androidNoMobileAfter t

/-- The bot user-agent patterns of `isBot`, lower-cased literals in source
order; every pattern of the source is a literal (the two escaped ones are
`/java\//i` and `/moz\.com/i`). -/
def botPatterns : List (List Char) :=
  ["googlebot".data, "bingbot".data, "slurp".data, "duckduckbot".data,
   "baiduspider".data, "yandexbot".data, "sogou".data, "exabot".data,
   "facebookexternalhit".data, "twitterbot".data, "linkedinbot".data,
   "whatsapp".data, "telegrambot".data, "pinterest".data, "slackbot".data,
   "bot".data, "crawler".data, "spider".data, "crawling".data, "scraper".data,
   "curl".data, "wget".data, "httpie".data, "postman".data,
   "python-requests".data, "python-urllib".data, "java/".data, "php/".data,
   "go-http-client".data, "ruby".data, "perl".data,
   "headless".data, "phantom".data, "selenium".data, "puppeteer".data, "playwright".data,
   "uptimerobot".data, "pingdom".data, "statuscake".data, "gtmetrix".data,
   "ahrefs".data, "semrush".data, "moz.com".data, "dotbot".data, "majestic".data,
   "screaming".data]

/-- Embeds `isBot`: a falsy user agent is a bot; otherwise some pattern must
match case-insensitively. -/
def isBot (ua : List Char) : Bool :=
  if ua = [] then true
  else botPatterns.any (fun pat => containsL (lowerStr ua) pat)

/-- Embeds `detectBrowser` (fixed priority order, `"Other"` default). -/
def detectBrowser (ua : List Char) : List Char :=
  if ua = [] then ("Unknown".data)
  else if testCI ua ("edg".data) then ("Edge".data)
  else if testCI ua ("opr".data) || testCI ua ("opera".data) then ("Opera".data)
  else if testCI ua ("chrome".data) && !testCI ua ("edg".data) then ("Chrome".data)
  else if testCI ua ("safari".data) && !testCI ua ("chrome".data) then ("Safari".data)
  else if testCI ua ("firefox".data) then ("Firefox".data)
  else if testCI ua ("msie".data) || testCI ua ("trident".data) then ("IE".data)
  else ("Other".data)

/-- Embeds `detectOS` (fixed priority order, `"Other"` default). -/
def detectOS (ua : List Char) : List Char :=
  if ua = [] then ("Unknown".data)
  else if testCI ua ("windows nt 10".data) then ("Windows 10/11".data)
  else if testCI ua ("windows".data) then ("Windows".data)
  else if testCI ua ("macintosh".data) || testCI ua ("mac os x".data) then ("macOS".data)
  else if testCI ua ("iphone".data) then ("iOS".data)
  else if testCI ua ("ipad".data) then ("iPadOS".data)
  else if testCI ua ("android".data) then ("Android".data)
  else if testCI ua ("linux".data) then ("Linux".data)
  else if testCI ua ("cros".data) then ("ChromeOS".data)
  else ("Other".data)

/-- Embeds `detectDevice`, including the `(?!.*mobile)` negative lookahead
of the tablet pattern (`"desktop"` default). -/
def detectDevice (ua : List Char) : List Char :=
  if ua = [] then ("unknown".data)
  else if testCI ua ("mobile".data)
      || containsThenL (lowerStr ua) ("android".data) ("mobile".data)
      || testCI ua ("iphone".data) then ("mobile".data)
  else if testCI ua ("ipad".data) || testCI ua ("tablet".data)
      || androidNoMobileAfter (lowerStr ua) then ("tablet".data)
  else ("desktop".data)

/-- Models the WHATWG `new URL(ref).hostname` builtin of the host platform
(not repository code): when the first colon of the input is immediately
followed by two slashes, it yields the host part after them, which extends
up to the first `'/'`, `':'`, `'?'` or `'#'` and must be nonempty; any
other input fails to parse (the `catch` branch of `cleanReferrer`). -/
def urlHostname (ref : List Char) : Option (List Char) :=
  match splitSchemeRest ref with
  | none => none
  | some rest =>
    let host := rest.takeWhile (fun c => ¬(c = '/' ∨ c = ':' ∨ c = '?' ∨ c = '#'))
    if host = [] then none else some host
where
  /-- Splits `scheme "://" rest`, requiring a nonempty scheme before the
  first colon. -/
  splitSchemeRest : List Char → Option (List Char)
    | [] => none
    | x :: t =>
      if x = ':' then
        match t with
        | '/' :: '/' :: rest => some rest
        | _ => none
      else splitSchemeRest t

/-- Replace the first occurrence of `pat` (assumed nonempty) by nothing, as
in `String.prototype.replace` with a string pattern. -/
def replaceFirstL (s pat : List Char) : List Char :=
  match s with
  | [] => []
  | x :: t => if startsWithL (x :: t) pat then (x :: t).drop pat.length
              else x :: replaceFirstL t pat

/-- Embeds `cleanReferrer`: falsy input or a parse failure gives
`"direct"`, the own domain gives `"internal"`, otherwise the hostname with
a leading `"www."` occurrence removed. -/
def cleanReferrer (ref : List Char) : List Char :=
  if ref = [] then ("direct".data)
  else
    match urlHostname ref with
    | none => ("direct".data)
    | some host =>
      if containsL host ("allgood.click".data) then ("internal".data)
      else replaceFirstL host ("www.".data)

/-! ## Pageview store (analytics module, lines 156-321) -/

/-- One row of the `pageviews` table. Timestamps are modelled as integers;
the ISO-8601 string comparison used by the SQLite queries is order-preserving
for these. -/
structure Pageview where
  timestamp : ℤ
  page : List Char
  ipAnonymized : List Char
  country : List Char
  language : List Char
  referrer : List Char
  userAgent : List Char
  browser : List Char
  os : List Char
  deviceType : List Char
  is_bot : Bool
deriving DecidableEq

/-- The request headers `trackPageview` reads. A JavaScript header that is
absent and one that is the empty string are both falsy and behave
identically in the source, so both are modelled by `[]`. -/
structure TrackRequest where
  userAgent : List Char
  cfConnectingIp : List Char
  xRealIp : List Char
  xForwardedFor : List Char
  reqIp : List Char
  remoteAddress : List Char
  cfIpCountry : List Char
  acceptLanguage : List Char
  referer : List Char
  referrerAlt : List Char
deriving DecidableEq

/-- JavaScript `a || b` on strings: `b` when `a` is falsy (empty). -/
def orFalsy (a b : List Char) : List Char := if a = [] then b else a

/-- Models `String.prototype.trim`. -/
def trimL (s : List Char) : List Char :=
  ((s.dropWhile Char.isWhitespace).reverse.dropWhile Char.isWhitespace).reverse

/-- Models `s.split(',')[0]`. -/
def firstCommaField (s : List Char) : List Char := (splitOnChar ',' s).getD 0 []

/-- Models `s.split('-')[0]`. -/
def firstDashField (s : List Char) : List Char := (splitOnChar '-' s).getD 0 []

/-- Embeds `extractCountryFromLang`: the first match of
`/[a-z]{2}-([A-Z]{2})/`, returning the captured upper-case pair. -/
def extractCountryFromLang : List Char → Option (List Char)
  | a :: b :: h :: c :: d :: rest =>
    if a.isLower && b.isLower && (h == '-') && c.isUpper && d.isUpper then some [c, d]
    else extractCountryFromLang (b :: h :: c :: d :: rest)
  | _ => none

/-- Models `page.match(/^\/(de|es|fr|pt)\/?/)`: the pattern matches exactly
when the page starts with one of the four two-letter prefixes (the trailing
optional slash never affects matchability). -/
def pageLangCode (page : List Char) : Option (List Char) :=
  if startsWithL page ("/de".data) then some ("de".data)
  else if startsWithL page ("/es".data) then some ("es".data)
  else if startsWithL page ("/fr".data) then some ("fr".data)
  else if startsWithL page ("/pt".data) then some ("pt".data)
  else none

/-- The row `trackPageview` inserts, built exactly as in lines 156-195 of
the analytics module: IP source chain, country chain, language resolution,
and the classification functions applied to the user agent. -/
def mkPageview (req : TrackRequest) (page : List Char) (now : ℤ) : Pageview :=
  let ua := req.userAgent
  let ip := orFalsy req.cfConnectingIp (orFalsy req.xRealIp (orFalsy
    (if req.xForwardedFor = [] then [] else trimL (firstCommaField req.xForwardedFor))
    (orFalsy req.reqIp (orFalsy req.remoteAddress ("unknown".data)))))
  let country := orFalsy req.cfIpCountry
    ((extractCountryFromLang req.acceptLanguage).getD ("unknown".data))
  let language :=
    match pageLangCode page with
    | some l => l
    | none => orFalsy (firstDashField (firstCommaField req.acceptLanguage)) ("en".data)
  { timestamp := now
    page := page
    ipAnonymized := anonymizeIP ip
    country := upperStr country
    language := lowerStr language
    referrer := cleanReferrer (orFalsy req.referer req.referrerAlt)
    userAgent := ua.take 500
    browser := detectBrowser ua
    os := detectOS ua
    deviceType := detectDevice ua
    is_bot := isBot ua }

/-- The aggregate values `getStats` reads with its `SELECT` queries
(modelled for the overview counts and the per-page breakdown; the remaining
breakdowns are analogous read-only aggregations). -/
structure StatsModel where
  total : ℕ
  humans : ℕ
  bots : ℕ
  byPage : List (List Char × ℕ)
deriving DecidableEq

/-- The query results of `getStats` over the store: rows in the window
`timestamp > now - days`, split by the bot flag. -/
def computeStats (store : List Pageview) (days now : ℤ) : StatsModel :=
  let inWindow := store.filter (fun r => decide (now - days < r.timestamp))
  let humanRows := inWindow.filter (fun r => !r.is_bot)
  { total := inWindow.length
    humans := humanRows.length
    bots := (inWindow.filter (fun r => r.is_bot)).length
    byPage := (humanRows.map (fun r => r.page)).dedup.map
      (fun p => (p, (humanRows.filter (fun r => r.page = p)).length)) }

/-- `trackPageview` as a store operation: one `INSERT` appending a row. -/
def trackPageviewOp (store : List Pageview) (req : TrackRequest) (page : List Char)
    (now : ℤ) : List Pageview × Unit :=
  (store ++ [mkPageview req page now], ())

/-- `getStats` as a store operation: `SELECT` queries only. -/
def getStatsOp (store : List Pageview) (days now : ℤ) : List Pageview × StatsModel :=
  (store, computeStats store days now)

/-- `cleanupOldData` as a store operation:
`DELETE FROM pageviews WHERE timestamp < cutoff` with
`cutoff = now - keepDays`, returning the number of deleted rows
(`result.changes`). -/
def cleanupOldDataOp (store : List Pageview) (keepDays now : ℤ) : List Pageview × ℕ :=
  let kept := store.filter (fun r => !decide (r.timestamp < now - keepDays))
  (kept, store.length - kept.length)

/-! ## Stripe webhook tax reconciliation (server.js, lines 1817-2133) -/

/-- One element of `invoice.lines.data[0].tax_amounts`: the inclusive flag
and the percentage of its (possibly separately retrieved) tax rate.
A missing `tax_rate` is modelled by percentage `0`, exactly the value the
source leaves in `taxRatePercentage` in that case. -/
structure TaxAmountEntry where
  inclusive : Bool
  ratePercentage : ℚ
deriving DecidableEq

/-- The fields of a Stripe invoice the webhook reads: `total`, `subtotal`
and `tax` in cents (a null `tax` is `0` via `invoice.tax || 0`), and the
first line's `tax_amounts`. -/
structure StripeInvoice where
  total : ℤ
  subtotal : ℤ
  tax : ℤ
  lineTaxAmounts : List TaxAmountEntry
deriving DecidableEq

/-- One element of `line_items.data[0].taxes` in the session fallback
branch: its `rate.percentage` and `rate.inclusive`. -/
structure LineItemTax where
  ratePercentage : ℚ
  inclusive : Bool
deriving DecidableEq

/-- The fields of an expanded checkout session the webhook reads. -/
structure CheckoutSession where
  amountTotal : ℤ
  amountTax : ℤ
  lineTaxes : List LineItemTax
  invoice : Option StripeInvoice
deriving DecidableEq

/-- The reconciliation output: `subtotalAmount`, `taxAmount` (cents) and
`taxRatePercentage` as computed by the `checkout.session.completed`
handler. -/
structure TaxData where
  subtotalAmount : ℤ
  taxAmount : ℤ
  taxRatePercentage : ℚ
deriving DecidableEq

/-- Embeds the invoice branch (lines 1902-1950): reverse-charge check
first (`invoice.tax = 0`), then the first `tax_amounts` entry; for
inclusive tax with positive rate the net is
`Math.round(total * 100 / (100 + rate))`, modelled as the rounding of the
exact rational quotient. -/
def extractInvoiceTaxData (inv : StripeInvoice) : TaxData :=
  let taxAmount := inv.tax
  if taxAmount = 0 then
    { subtotalAmount := inv.total, taxAmount := 0, taxRatePercentage := 0 }
  else
    match inv.lineTaxAmounts with
    | [] => { subtotalAmount := inv.subtotal, taxAmount := taxAmount, taxRatePercentage := 0 }
    | entry :: _ =>
      let rate := entry.ratePercentage
      if entry.inclusive = true ∧ 0 < rate then
        { subtotalAmount := round (((inv.total : ℚ) * 100) / (100 + rate)),
          taxAmount := taxAmount, taxRatePercentage := rate }
      else
        { subtotalAmount := inv.subtotal, taxAmount := taxAmount, taxRatePercentage := rate }

/-- Embeds the session fallback branch (lines 1958-2000), used when the
session has no invoice: same reverse-charge check on
`total_details.amount_tax`, then the first line-item tax. -/
def extractSessionTaxData (s : CheckoutSession) : TaxData :=
  let taxAmount := s.amountTax
  if taxAmount = 0 then
    { subtotalAmount := s.amountTotal, taxAmount := 0, taxRatePercentage := 0 }
  else
    match s.lineTaxes with
    | [] => { subtotalAmount := s.amountTotal, taxAmount := taxAmount, taxRatePercentage := 0 }
    | t :: _ =>
      let rate := t.ratePercentage
      if t.inclusive = true ∧ 0 < rate then
        { subtotalAmount := round (((s.amountTotal : ℚ) * 100) / (100 + rate)),
          taxAmount := taxAmount, taxRatePercentage := rate }
      else
        { subtotalAmount := s.amountTotal, taxAmount := taxAmount, taxRatePercentage := rate }

/-- The full reconciliation: the invoice branch when the session carries an
invoice, the session fallback otherwise. -/
def extractTaxData (s : CheckoutSession) : TaxData :=
  match s.invoice with
  | some inv => extractInvoiceTaxData inv
  | none => extractSessionTaxData s

/-! ## Zoho tax-identifier mapping (server.js, lines 528-571) -/

/-- The literal `TAX_IDS` table of `createZohoInvoice`: one identifier per
whole-number rate from 0 to 30, written in the source as
`0: 'YOUR_ZOHO_TAX_ID_0_PERCENT'` up to `30: 'YOUR_ZOHO_TAX_ID_30_PERCENT'`. -/
def TAX_IDS : List (ℤ × List Char) :=
  (List.range 31).map
    (fun n => ((n : ℤ), ("YOUR_ZOHO_TAX_ID_" ++ toString n ++ "_PERCENT").data))

/-- The fields of `invoiceData` relevant to tax mapping inside
`createZohoInvoice` (a missing rate is `0` via `|| 0`). -/
structure ZohoInvoiceData where
  country : Option (List Char)
  vatNumber : Option (List Char)
  taxRatePercentage : ℚ
deriving DecidableEq

/-- The failure raised by `createZohoInvoice` when the rounded rate has no
entry: `No tax mapping for X% (rounded: Y%)`. -/
inductive ZohoInvoiceError where
  | noTaxMapping (ratePercentage : ℚ) (rounded : ℤ)
deriving DecidableEq

/-- Embeds the tax-identifier step of `createZohoInvoice` (lines 563-571):
round the rate, look it up in `TAX_IDS`, and throw when there is no entry. -/
def createZohoInvoiceTaxId (d : ZohoInvoiceData) : Except ZohoInvoiceError (List Char) :=
  let roundedTax := round d.taxRatePercentage
  match TAX_IDS.lookup roundedTax with
  | some taxId => Except.ok taxId
  | none => Except.error (ZohoInvoiceError.noTaxMapping d.taxRatePercentage roundedTax)

/-! ## The webhook endpoint (server.js, lines 1817-2133) -/

/-- The event types the handler's `switch` distinguishes. -/
inductive StripeEventType where
  | checkoutSessionCompleted
  | paymentIntentSucceeded
  | paymentIntentFailed
  | otherEvent
deriving DecidableEq

/-- A verified Stripe event; `session` is `event.data.object` for the
checkout case. -/
structure StripeEvent where
  type : StripeEventType
  livemode : Bool
  session : CheckoutSession
deriving DecidableEq

/-- The outward effects of one webhook call that the claims talk about:
the HTTP status of the response, the notification emails sent, and the
invoice-creation attempts (recorded with their reconciled tax data).
Follow-up Zoho emails depend on external API results and are outside this
model. -/
structure WebhookOutcome where
  status : ℕ
  paymentEmails : ℕ
  invoiceAttempts : List TaxData
deriving DecidableEq

/-- Embeds `app.post` for the `/webhook` route: a failed
`stripe.webhooks.constructEvent` (modelled as the `Except.error` case of
the verification result) returns status 400 before any processing;
otherwise the event is dispatched, a `checkout.session.completed` event
sends the success notification and, when Zoho invoicing is enabled,
attempts invoice creation with the reconciled tax data, and the handler
answers 200 with `res.json`. -/
def webhookHandler (verified : Except (List Char) StripeEvent)
    (zohoEnabled : Bool) : WebhookOutcome :=
  match verified with
  | Except.error _ => { status := 400, paymentEmails := 0, invoiceAttempts := [] }
  | Except.ok ev =>
    match ev.type with
    | StripeEventType.checkoutSessionCompleted =>
      { status := 200
        paymentEmails := 1
        invoiceAttempts := if zohoEnabled then [extractTaxData ev.session] else [] }
    | StripeEventType.paymentIntentSucceeded =>
      { status := 200, paymentEmails := 0, invoiceAttempts := [] }
    | StripeEventType.paymentIntentFailed =>
      { status := 200, paymentEmails := 1, invoiceAttempts := [] }
    | StripeEventType.otherEvent =>
      { status := 200, paymentEmails := 0, invoiceAttempts := [] }

/-! ## Concrete instances used by the claims -/

/-- A concrete invoice on which the provider-reported tax (100 cents) is
not `total - net`: total 1200, inclusive rate 20%, reported tax 100. -/
def invC1 : StripeInvoice :=
  { total := 1200, subtotal := 0, tax := 100,
    lineTaxAmounts := [{ inclusive := true, ratePercentage := 20 }] }

/-- A concrete inclusive-tax invoice whose reported tax does equal
`total - net`: total 999 cents at 20% inclusive, net 833, tax 166. -/
def invW1 : StripeInvoice :=
  { total := 999, subtotal := 0, tax := 166,
    lineTaxAmounts := [{ inclusive := true, ratePercentage := 20 }] }

/-- A concrete invoice-data record with the unmapped rate 37%. -/
def zohoRate37 : ZohoInvoiceData :=
  { country := none, vatNumber := none, taxRatePercentage := 37 }

/-- A concrete zero-tax invoice carrying a positive nominal rate 21%. -/
def invRevCharge : StripeInvoice :=
  { total := 2100, subtotal := 0, tax := 0,
    lineTaxAmounts := [{ inclusive := true, ratePercentage := 21 }] }

/-- A concrete session without invoice and without any tax data. -/
def sessNoTax : CheckoutSession :=
  { amountTotal := 999, amountTax := 0, lineTaxes := [], invoice := none }

/-- A concrete tracking request from a curl client behind Cloudflare. -/
def reqW : TrackRequest :=
  { userAgent := "curl/8.5.0".data, cfConnectingIp := "1.2.3.4".data, xRealIp := [],
    xForwardedFor := [], reqIp := [], remoteAddress := [], cfIpCountry := "ES".data,
    acceptLanguage := [], referer := [], referrerAlt := [] }

/-- A concrete stored row with timestamp 0. -/
def rowOld : Pageview := mkPageview reqW ("/de/page".data) 0

/-- A concrete stored row with timestamp 100. -/
def rowNew : Pageview := mkPageview reqW ("/en".data) 100

/-! ## Lemmas -/

/-! ### Lemmas about `splitOnChar` -/

theorem splitOnChar_ne_nil (c : Char) (s : List Char) : splitOnChar c s ≠ [] := by
  cases s with
  | nil => simp [splitOnChar]
  | cons x xs =>
    simp only [splitOnChar]
    split
    · simp
    · split
      · simp
      · simp

theorem splitOnChar_of_not_mem {c : Char} {s : List Char} (h : c ∉ s) :
    splitOnChar c s = [s] := by
  induction s with
  | nil => simp [splitOnChar]
  | cons x xs ih =>
    have hx : x ≠ c := fun hxc => h (hxc ▸ List.mem_cons_self x xs)
    have hxs : c ∉ xs := fun hm => h (List.mem_cons_of_mem x hm)
    simp [splitOnChar, hx, ih hxs]

theorem splitOnChar_append {c : Char} {a : List Char} (b : List Char) (h : c ∉ a) :
    splitOnChar c (a ++ c :: b) = a :: splitOnChar c b := by
  induction a with
  | nil => simp [splitOnChar]
  | cons x xs ih =>
    have hx : x ≠ c := fun hxc => h (hxc ▸ List.mem_cons_self x xs)
    have hxs : c ∉ xs := fun hm => h (List.mem_cons_of_mem x hm)
    simp only [List.cons_append, splitOnChar, hx, if_false]
    rw [show xs.append (c :: b) = xs ++ (c :: b) from rfl, ih hxs]

theorem mem_of_mem_splitOnChar {c : Char} {s p : List Char} (hp : p ∈ splitOnChar c s) :
    ∀ x ∈ p, x ∈ s := by
  induction s generalizing p with
  | nil =>
    simp only [splitOnChar, List.mem_singleton] at hp
    subst hp; intro x hx; cases hx
  | cons y ys ih =>
    simp only [splitOnChar] at hp
    by_cases hy : y = c
    · rw [if_pos hy] at hp
      rcases List.mem_cons.mp hp with h1 | h2
      · subst h1; intro x hx; cases hx
      · intro x hx; exact List.mem_cons_of_mem y (ih h2 x hx)
    · rw [if_neg hy] at hp
      rcases hq : splitOnChar c ys with _ | ⟨q, qs⟩
      · exact absurd hq (splitOnChar_ne_nil c ys)
      · rw [hq] at hp
        rcases List.mem_cons.mp hp with h1 | h2
        · subst h1
          intro x hx
          rcases List.mem_cons.mp hx with h3 | h4
          · exact h3 ▸ List.mem_cons_self y ys
          · exact List.mem_cons_of_mem y (ih (hq ▸ List.mem_cons_self q qs) x h4)
        · intro x hx
          exact List.mem_cons_of_mem y (ih (hq ▸ List.mem_cons_of_mem q h2) x hx)

theorem not_mem_of_mem_splitOnChar {c : Char} {s p : List Char}
    (hp : p ∈ splitOnChar c s) : c ∉ p := by
  induction s generalizing p with
  | nil =>
    simp only [splitOnChar, List.mem_singleton] at hp
    subst hp; simp
  | cons y ys ih =>
    simp only [splitOnChar] at hp
    by_cases hy : y = c
    · rw [if_pos hy] at hp
      rcases List.mem_cons.mp hp with h1 | h2
      · subst h1; simp
      · exact ih h2
    · rw [if_neg hy] at hp
      rcases hq : splitOnChar c ys with _ | ⟨q, qs⟩
      · exact absurd hq (splitOnChar_ne_nil c ys)
      · rw [hq] at hp
        rcases List.mem_cons.mp hp with h1 | h2
        · subst h1
          intro hmem
          rcases List.mem_cons.mp hmem with h3 | h4
          · exact hy h3.symm
          · exact ih (hq ▸ List.mem_cons_self q qs) h4
        · exact ih (hq ▸ List.mem_cons_of_mem q h2)

/-! ### Evaluation lemmas for `anonymizeIP` -/

theorem intercalate_three (s a b c : List Char) :
    List.intercalate s [a, b, c] = a ++ (s ++ (b ++ (s ++ c))) := by
  simp [List.intercalate]

/-- On a four-part dotted input the last part is dropped and replaced by
`"xxx"`, whatever it is. -/
theorem anonymizeIP_quad {p0 p1 p2 p3 : List Char}
    (h0 : '.' ∉ p0) (h1 : '.' ∉ p1) (h2 : '.' ∉ p2) (h3 : '.' ∉ p3) :
    anonymizeIP (p0 ++ ('.' :: (p1 ++ ('.' :: (p2 ++ ('.' :: p3)))))) =
      p0 ++ ('.' :: (p1 ++ ('.' :: (p2 ++ (".xxx".data))))) := by
  have hne : p0 ++ ('.' :: (p1 ++ ('.' :: (p2 ++ ('.' :: p3))))) ≠ [] := by
    simp
  have hsplit : splitOnChar '.' (p0 ++ ('.' :: (p1 ++ ('.' :: (p2 ++ ('.' :: p3)))))) =
      [p0, p1, p2, p3] := by
    rw [splitOnChar_append _ h0, splitOnChar_append _ h1, splitOnChar_append _ h2,
      splitOnChar_of_not_mem h3]
  unfold anonymizeIP
  rw [if_neg hne]
  simp [hsplit, List.getD]

/-- On an input with at least four colon-separated parts and no dot, the
first three parts are kept and the tail is replaced by `"::xxx"`. -/
theorem anonymizeIP_v6 {q0 q1 q2 r : List Char}
    (hq0 : ':' ∉ q0) (hq1 : ':' ∉ q1) (hq2 : ':' ∉ q2)
    (hd0 : '.' ∉ q0) (hd1 : '.' ∉ q1) (hd2 : '.' ∉ q2) (hdr : '.' ∉ r) :
    anonymizeIP (q0 ++ (':' :: (q1 ++ (':' :: (q2 ++ (':' :: r)))))) =
      q0 ++ (':' :: (q1 ++ (':' :: (q2 ++ ("::xxx".data))))) := by
  have hne : q0 ++ (':' :: (q1 ++ (':' :: (q2 ++ (':' :: r))))) ≠ [] := by
    simp
  have hdot : '.' ∉ q0 ++ (':' :: (q1 ++ (':' :: (q2 ++ (':' :: r))))) := by
    intro hmem
    rcases List.mem_append.mp hmem with h | h
    · exact hd0 h
    rcases List.mem_cons.mp h with h | h
    · exact absurd h (by decide)
    rcases List.mem_append.mp h with h | h
    · exact hd1 h
    rcases List.mem_cons.mp h with h | h
    · exact absurd h (by decide)
    rcases List.mem_append.mp h with h | h
    · exact hd2 h
    rcases List.mem_cons.mp h with h | h
    · exact absurd h (by decide)
    · exact hdr h
  have hsplit4 : splitOnChar '.' (q0 ++ (':' :: (q1 ++ (':' :: (q2 ++ (':' :: r)))))) =
      [q0 ++ (':' :: (q1 ++ (':' :: (q2 ++ (':' :: r)))))] :=
    splitOnChar_of_not_mem hdot
  have hsplit6 : splitOnChar ':' (q0 ++ (':' :: (q1 ++ (':' :: (q2 ++ (':' :: r)))))) =
      q0 :: q1 :: q2 :: splitOnChar ':' r := by
    rw [splitOnChar_append _ hq0, splitOnChar_append _ hq1, splitOnChar_append _ hq2]
  have hlen : 0 < (splitOnChar ':' r).length :=
    List.length_pos.mpr (splitOnChar_ne_nil ':' r)
  unfold anonymizeIP
  rw [if_neg hne]
  simp only [hsplit4, hsplit6, List.length_singleton]
  rw [if_neg (by norm_num)]
  rw [if_pos (by simp; omega)]
  simp [intercalate_three, List.append_assoc]

theorem anonymizeIP_unknown : anonymizeIP ("unknown".data) = ("unknown".data) := by decide

/-- The `"unknown"` fallback of the IPv6 branch, as an evaluation lemma. -/
theorem anonymizeIP_fallback {s : List Char} (hs : s ≠ [])
    (h4 : (splitOnChar '.' s).length ≠ 4)
    (h6 : ¬ (splitOnChar ':' s).length > 3) :
    anonymizeIP s = ("unknown".data) := by
  unfold anonymizeIP
  rw [if_neg hs]
  simp only [if_neg h4, if_neg h6]

/-- Idempotence of `anonymizeIP` on every input that does not mix the two
separators (in particular on every IPv4 and every pure IPv6 address). -/
theorem anonymizeIP_idem_of_not_both {s : List Char} (h : '.' ∉ s ∨ ':' ∉ s) :
    anonymizeIP (anonymizeIP s) = anonymizeIP s := by
  by_cases hs : s = []
  · subst hs; decide
  rcases h with hdot | hcolon
  · -- no dot in the input: the IPv4 branch is skipped
    have hsplit : splitOnChar '.' s = [s] := splitOnChar_of_not_mem hdot
    by_cases hv : (splitOnChar ':' s).length > 3
    · rcases hsp : splitOnChar ':' s with _ | ⟨q0, L1⟩
      · exact absurd hsp (splitOnChar_ne_nil ':' s)
      rcases L1 with _ | ⟨q1, L2⟩
      · rw [hsp] at hv; simp at hv
      rcases L2 with _ | ⟨q2, L3⟩
      · rw [hsp] at hv; simp at hv
      rcases L3 with _ | ⟨q3, L4⟩
      · rw [hsp] at hv; simp at hv
      have hm0 : q0 ∈ splitOnChar ':' s := by rw [hsp]; simp
      have hm1 : q1 ∈ splitOnChar ':' s := by rw [hsp]; simp
      have hm2 : q2 ∈ splitOnChar ':' s := by rw [hsp]; simp
      have hq0 : ':' ∉ q0 := not_mem_of_mem_splitOnChar hm0
      have hq1 : ':' ∉ q1 := not_mem_of_mem_splitOnChar hm1
      have hq2 : ':' ∉ q2 := not_mem_of_mem_splitOnChar hm2
      have hd0 : '.' ∉ q0 := fun hx => hdot (mem_of_mem_splitOnChar hm0 '.' hx)
      have hd1 : '.' ∉ q1 := fun hx => hdot (mem_of_mem_splitOnChar hm1 '.' hx)
      have hd2 : '.' ∉ q2 := fun hx => hdot (mem_of_mem_splitOnChar hm2 '.' hx)
      have hres : anonymizeIP s = q0 ++ (':' :: (q1 ++ (':' :: (q2 ++ ("::xxx".data))))) := by
        unfold anonymizeIP
        rw [if_neg hs]
        simp only [hsplit, List.length_singleton]
        rw [if_neg (by norm_num), hsp]
        rw [if_pos (by simp)]
        simp [intercalate_three, List.append_assoc]
      rw [hres]
      have hform : q0 ++ (':' :: (q1 ++ (':' :: (q2 ++ ("::xxx".data))))) =
          q0 ++ (':' :: (q1 ++ (':' :: (q2 ++ (':' :: (':' :: ("xxx".data))))))) := rfl
      rw [hform, anonymizeIP_v6 hq0 hq1 hq2 hd0 hd1 hd2 (by decide)]
    · have hres : anonymizeIP s = ("unknown".data) :=
        anonymizeIP_fallback hs (by rw [hsplit]; norm_num) hv
      rw [hres, anonymizeIP_unknown]
  · -- no colon in the input: the IPv6 branch can only give "unknown"
    have hv6 : splitOnChar ':' s = [s] := splitOnChar_of_not_mem hcolon
    by_cases hp : (splitOnChar '.' s).length = 4
    · rcases hsp : splitOnChar '.' s with _ | ⟨p0, L1⟩
      · exact absurd hsp (splitOnChar_ne_nil '.' s)
      rcases L1 with _ | ⟨p1, L2⟩
      · rw [hsp] at hp; simp at hp
      rcases L2 with _ | ⟨p2, L3⟩
      · rw [hsp] at hp; simp at hp
      rcases L3 with _ | ⟨p3, L4⟩
      · rw [hsp] at hp; simp at hp
      have hL4 : L4 = [] := by
        rw [hsp] at hp
        simpa using hp
      subst hL4
      have hm0 : p0 ∈ splitOnChar '.' s := by rw [hsp]; simp
      have hm1 : p1 ∈ splitOnChar '.' s := by rw [hsp]; simp
      have hm2 : p2 ∈ splitOnChar '.' s := by rw [hsp]; simp
      have hd0 : '.' ∉ p0 := not_mem_of_mem_splitOnChar hm0
      have hd1 : '.' ∉ p1 := not_mem_of_mem_splitOnChar hm1
      have hd2 : '.' ∉ p2 := not_mem_of_mem_splitOnChar hm2
      have hres : anonymizeIP s = p0 ++ ('.' :: (p1 ++ ('.' :: (p2 ++ (".xxx".data))))) := by
        unfold anonymizeIP
        rw [if_neg hs]
        simp only [hsp]
        rw [if_pos (by simp)]
        simp [List.getD]
      rw [hres]
      have hform : p0 ++ ('.' :: (p1 ++ ('.' :: (p2 ++ (".xxx".data))))) =
          p0 ++ ('.' :: (p1 ++ ('.' :: (p2 ++ ('.' :: ("xxx".data)))))) := rfl
      rw [hform, anonymizeIP_quad hd0 hd1 hd2 (by decide)]
    · have hres : anonymizeIP s = ("unknown".data) :=
        anonymizeIP_fallback hs hp (by rw [hv6]; norm_num)
      rw [hres, anonymizeIP_unknown]

/-! ### Substring lemmas -/

theorem startsWithL_append_self (p t : List Char) : startsWithL (p ++ t) p = true := by
  induction p with
  | nil => cases t <;> rfl
  | cons b p ih => simp [startsWithL, ih]

theorem containsL_of_startsWithL {s pat : List Char} (h : startsWithL s pat = true) :
    containsL s pat = true := by
  cases s <;> simp [containsL, h]

theorem containsL_append_middle (x pat y : List Char) :
    containsL (x ++ (pat ++ y)) pat = true := by
  induction x with
  | nil => exact containsL_of_startsWithL (startsWithL_append_self pat y)
  | cons a x ih => simp [containsL, ih]

/-! ### Rounding helper -/

theorem round_rat_eq (q : ℚ) (z : ℤ) (h1 : (z : ℚ) ≤ q + 1 / 2) (h2 : q + 1 / 2 < z + 1) :
    round q = z := by
  rw [round_eq]
  exact Int.floor_eq_iff.mpr ⟨h1, h2⟩

/-! ## Claim C1 -/

/-- C1, counterexample to the claim as stated: the reconciliation computes
net = round(1200·100/120) = 1000 but leaves the tax amount at the
provider-reported 100 cents, which differs from T − net = 200, and
net + tax = 1100 misses the total 1200 by more than one cent. The tax
amount is passed through from the provider, never recomputed as T − net. -/
theorem claim_C1_counterexample :
    extractInvoiceTaxData invC1 =
        { subtotalAmount := 1000, taxAmount := 100, taxRatePercentage := 20 } ∧
      (extractInvoiceTaxData invC1).taxAmount ≠
        invC1.total - (extractInvoiceTaxData invC1).subtotalAmount ∧
      ¬((extractInvoiceTaxData invC1).subtotalAmount +
          (extractInvoiceTaxData invC1).taxAmount - invC1.total).natAbs ≤ 1 := by
  have h : extractInvoiceTaxData invC1 =
      { subtotalAmount := 1000, taxAmount := 100, taxRatePercentage := 20 } := by
    simp only [extractInvoiceTaxData, invC1]
    norm_num
  refine ⟨h, ?_, ?_⟩ <;> rw [h] <;> simp [invC1]

/-- C1 (amended): for a tax-inclusive completed checkout with nonzero
collected tax and positive rate, both reconciliation branches compute
net = round(total·100/(100+rate)); the tax amount is the provider-reported
collected tax passed through unchanged (not recomputed as total − net);
whenever that reported tax equals total − net, net + tax reconstructs the
total exactly. -/
theorem claim_C1_inclusive_net_reconciliation :
    (∀ (inv : StripeInvoice) (e : TaxAmountEntry) (rest : List TaxAmountEntry),
        inv.tax ≠ 0 → inv.lineTaxAmounts = e :: rest → e.inclusive = true →
        0 < e.ratePercentage →
          (extractInvoiceTaxData inv).subtotalAmount =
              round (((inv.total : ℚ) * 100) / (100 + e.ratePercentage)) ∧
            (extractInvoiceTaxData inv).taxAmount = inv.tax ∧
            (inv.tax = inv.total - (extractInvoiceTaxData inv).subtotalAmount →
              (extractInvoiceTaxData inv).subtotalAmount +
                  (extractInvoiceTaxData inv).taxAmount = inv.total)) ∧
    (∀ (s : CheckoutSession) (t : LineItemTax) (rest : List LineItemTax),
        s.invoice = none → s.amountTax ≠ 0 → s.lineTaxes = t :: rest →
        t.inclusive = true → 0 < t.ratePercentage →
          (extractTaxData s).subtotalAmount =
              round (((s.amountTotal : ℚ) * 100) / (100 + t.ratePercentage)) ∧
            (extractTaxData s).taxAmount = s.amountTax ∧
            (s.amountTax = s.amountTotal - (extractTaxData s).subtotalAmount →
              (extractTaxData s).subtotalAmount + (extractTaxData s).taxAmount
                = s.amountTotal)) := by
  constructor
  · intro inv e rest h1 h2 h3 h4
    have hr : extractInvoiceTaxData inv =
        { subtotalAmount := round (((inv.total : ℚ) * 100) / (100 + e.ratePercentage)),
          taxAmount := inv.tax, taxRatePercentage := e.ratePercentage } := by
      simp only [extractInvoiceTaxData, h2]
      rw [if_neg h1, if_pos ⟨h3, h4⟩]
    rw [hr]
    exact ⟨rfl, rfl, fun h5 => by rw [h5]; ring⟩
  · intro s t rest h0 h1 h2 h3 h4
    have hr : extractTaxData s =
        { subtotalAmount := round (((s.amountTotal : ℚ) * 100) / (100 + t.ratePercentage)),
          taxAmount := s.amountTax, taxRatePercentage := t.ratePercentage } := by
      simp only [extractTaxData, h0, extractSessionTaxData, h2]
      rw [if_neg h1, if_pos ⟨h3, h4⟩]
    rw [hr]
    exact ⟨rfl, rfl, fun h5 => by rw [h5]; ring⟩

/-- C1 witness: the amended claim applied to `invW1`; the rounded net is
833 = round(832.5) and net + tax reconstructs the total exactly. -/
theorem claim_C1_witness :
    (extractInvoiceTaxData invW1).subtotalAmount = 833 ∧
      (extractInvoiceTaxData invW1).taxAmount = 166 ∧
      (extractInvoiceTaxData invW1).subtotalAmount +
        (extractInvoiceTaxData invW1).taxAmount = 999 := by
  obtain ⟨hs, ht, himp⟩ := claim_C1_inclusive_net_reconciliation.1 invW1
    { inclusive := true, ratePercentage := 20 } [] (by decide) rfl rfl (by norm_num)
  have hround : round (((invW1.total : ℚ) * 100) /
      (100 + ({ inclusive := true, ratePercentage := 20 } : TaxAmountEntry).ratePercentage))
      = 833 := by
    apply round_rat_eq
    · show ((833 : ℤ) : ℚ) ≤ ((invW1.total : ℤ) : ℚ) * 100 / (100 + 20) + 1 / 2
      norm_num [invW1]
    · show ((invW1.total : ℤ) : ℚ) * 100 / (100 + 20) + 1 / 2 < (833 : ℤ) + 1
      norm_num [invW1]
  rw [hround] at hs
  have htot : invW1.tax = invW1.total - (extractInvoiceTaxData invW1).subtotalAmount := by
    rw [hs]; rfl
  refine ⟨hs, ht, ?_⟩
  have := himp htot
  rw [this]; rfl

/-! ## Claim C2 -/

/-- C2: whenever the provider reports zero collected tax, both
reconciliation branches classify the payment as reverse charge: the net
equals the total, the tax amount is 0 and the rate is 0, whatever nominal
rate (however positive) the line items carry — the net is taken directly
from the total, never computed by dividing by the nominal rate. -/
theorem claim_C2_reverse_charge :
    (∀ inv : StripeInvoice, inv.tax = 0 →
        extractInvoiceTaxData inv =
          { subtotalAmount := inv.total, taxAmount := 0, taxRatePercentage := 0 }) ∧
    (∀ s : CheckoutSession, s.amountTax = 0 →
        extractSessionTaxData s =
          { subtotalAmount := s.amountTotal, taxAmount := 0, taxRatePercentage := 0 }) := by
  constructor
  · intro inv h
    simp [extractInvoiceTaxData, h]
  · intro s h
    simp [extractSessionTaxData, h]

/-- C2 witness: an invoice with a positive nominal rate of 21% on its line
item but zero collected tax is reconciled as net = total, tax = 0. -/
theorem claim_C2_witness :
    extractInvoiceTaxData invRevCharge =
      { subtotalAmount := 2100, taxAmount := 0, taxRatePercentage := 0 } :=
  claim_C2_reverse_charge.1 invRevCharge rfl

/-! ## Claim C3 -/

/-- C3: the tax-identifier step of invoice creation errors out with an
explicit `noTaxMapping` error naming the rate exactly when the rounded
rate has no `TAX_IDS` entry; every successful lookup returns the table
entry for the rounded rate (never a default), and the outcome depends only
on the rate — not on the country or on whether a VAT identifier is
present. -/
theorem claim_C3_unmapped_rate_errors :
    (∀ d : ZohoInvoiceData, TAX_IDS.lookup (round d.taxRatePercentage) = none →
        createZohoInvoiceTaxId d =
          Except.error
            (ZohoInvoiceError.noTaxMapping d.taxRatePercentage (round d.taxRatePercentage))) ∧
    (∀ (d : ZohoInvoiceData) (tid : List Char), createZohoInvoiceTaxId d = Except.ok tid →
        TAX_IDS.lookup (round d.taxRatePercentage) = some tid) ∧
    (∀ d1 d2 : ZohoInvoiceData, d1.taxRatePercentage = d2.taxRatePercentage →
        createZohoInvoiceTaxId d1 = createZohoInvoiceTaxId d2) := by
  refine ⟨?_, ?_, ?_⟩
  · intro d h
    simp only [createZohoInvoiceTaxId, h]
  · intro d tid h
    simp only [createZohoInvoiceTaxId] at h
    rcases hl : TAX_IDS.lookup (round d.taxRatePercentage) with _ | v
    · rw [hl] at h; cases h
    · rw [hl] at h
      cases h
      rfl
  · intro d1 d2 h
    simp only [createZohoInvoiceTaxId, h]

/-- C3 witness: a 37% rate (the claim's example) has no table entry and
produces the explicit error naming the rate. -/
theorem claim_C3_witness :
    createZohoInvoiceTaxId zohoRate37 =
      Except.error (ZohoInvoiceError.noTaxMapping 37 37) := by
  have h37 : round ((37 : ℚ)) = (37 : ℤ) := by norm_num
  have hl : TAX_IDS.lookup (round (zohoRate37.taxRatePercentage)) = none := by
    show TAX_IDS.lookup (round ((37 : ℚ))) = none
    rw [h37]
    decide
  have h := claim_C3_unmapped_rate_errors.1 _ hl
  rw [h]
  show Except.error (ZohoInvoiceError.noTaxMapping (37 : ℚ) (round ((37 : ℚ)))) = _
  rw [h37]

/-! ## Claim C4 -/

/-- C4: a completed checkout with no tax metadata at all — zero collected
tax and an empty tax-amounts list on the invoice (resp. no invoice and an
empty taxes list on the session line items) — is reconciled by both
branches with the total as the net amount and zero tax. -/
theorem claim_C4_no_tax_metadata_fallback :
    (∀ inv : StripeInvoice, inv.tax = 0 → inv.lineTaxAmounts = [] →
        extractInvoiceTaxData inv =
          { subtotalAmount := inv.total, taxAmount := 0, taxRatePercentage := 0 }) ∧
    (∀ s : CheckoutSession, s.invoice = none → s.amountTax = 0 → s.lineTaxes = [] →
        extractTaxData s =
          { subtotalAmount := s.amountTotal, taxAmount := 0, taxRatePercentage := 0 }) := by
  constructor
  · intro inv h _
    simp [extractInvoiceTaxData, h]
  · intro s h0 h _
    simp [extractTaxData, h0, extractSessionTaxData, h]

/-- C4 witness: a session without invoice, with no tax data at all, is
reconciled as net = total = 999, tax = 0. -/
theorem claim_C4_witness :
    extractTaxData sessNoTax =
      { subtotalAmount := 999, taxAmount := 0, taxRatePercentage := 0 } :=
  claim_C4_no_tax_metadata_fallback.2 sessNoTax rfl rfl rfl

/-! ## Claim C5 -/

/-- C5: when signature verification of an inbound webhook request fails,
the handler answers with HTTP status 400 and performs no processing at
all: no notification email is sent and no invoice creation is attempted,
whatever the error and whether or not Zoho invoicing is enabled. -/
theorem claim_C5_signature_failure_rejects (msg : List Char) (zohoEnabled : Bool) :
    webhookHandler (Except.error msg) zohoEnabled =
      { status := 400, paymentEmails := 0, invoiceAttempts := [] } := rfl

/-! ## Claim C6 -/

/-- C6, counterexample to unrestricted idempotence: on the mixed-separator
string `"a.b.c.d:x:y:z.w"` the first application takes the IPv6 branch
(five dot-parts, four colon-parts) and yields `"a.b.c.d:x:y::xxx"`, but
that output has exactly four dot-parts, so the second application takes
the IPv4 branch and yields the different string `"a.b.c.xxx"`. -/
theorem claim_C6_counterexample :
    anonymizeIP (anonymizeIP ("a.b.c.d:x:y:z.w".data)) ≠
        anonymizeIP ("a.b.c.d:x:y:z.w".data) ∧
      anonymizeIP ("a.b.c.d:x:y:z.w".data) = ("a.b.c.d:x:y::xxx".data) ∧
      anonymizeIP (anonymizeIP ("a.b.c.d:x:y:z.w".data)) = ("a.b.c.xxx".data) := by
  refine ⟨?_, by decide, by decide⟩
  decide

/-- C6 (amended): `anonymizeIP` maps `"203.0.113.42"` to `"203.0.113.xxx"`;
on every four-part dotted input it replaces the last octet by `"xxx"`; on
every dot-free input with more than three colon-separated hextets it keeps
the first three followed by `"::xxx"`; it is deterministic; and it is
idempotent on every input that does not contain both a dot and a colon (in
particular on every IPv4 and every pure IPv6 address) — on mixed-separator
strings a second application can differ. -/
theorem claim_C6_anonymizeIP_behaviour :
    anonymizeIP ("203.0.113.42".data) = ("203.0.113.xxx".data) ∧
      (∀ p0 p1 p2 p3 : List Char, '.' ∉ p0 → '.' ∉ p1 → '.' ∉ p2 → '.' ∉ p3 →
        anonymizeIP (p0 ++ ('.' :: (p1 ++ ('.' :: (p2 ++ ('.' :: p3)))))) =
          p0 ++ ('.' :: (p1 ++ ('.' :: (p2 ++ (".xxx".data)))))) ∧
      (∀ q0 q1 q2 r : List Char, ':' ∉ q0 → ':' ∉ q1 → ':' ∉ q2 →
        '.' ∉ q0 → '.' ∉ q1 → '.' ∉ q2 → '.' ∉ r →
        anonymizeIP (q0 ++ (':' :: (q1 ++ (':' :: (q2 ++ (':' :: r)))))) =
          q0 ++ (':' :: (q1 ++ (':' :: (q2 ++ ("::xxx".data)))))) ∧
      (∀ s t : List Char, s = t → anonymizeIP s = anonymizeIP t) ∧
      (∀ s : List Char, ('.' ∉ s ∨ ':' ∉ s) →
        anonymizeIP (anonymizeIP s) = anonymizeIP s) := by
  refine ⟨by decide, ?_, ?_, ?_, ?_⟩
  · intro p0 p1 p2 p3 h0 h1 h2 h3
    exact anonymizeIP_quad h0 h1 h2 h3
  · intro q0 q1 q2 r h1 h2 h3 h4 h5 h6 h7
    exact anonymizeIP_v6 h1 h2 h3 h4 h5 h6 h7
  · intro s t h
    rw [h]
  · intro s h
    exact anonymizeIP_idem_of_not_both h

/-- C6 witness: the octet-replacement conjunct applied to `"10.0.0.7"`, and
the idempotence conjunct applied to the dot-free IPv6 address
`"2001:db8:85a3:8d3"`. -/
theorem claim_C6_witness :
    anonymizeIP (("10".data) ++ ('.' :: (("0".data) ++ ('.' :: (("0".data) ++
          ('.' :: ("7".data))))))) =
        ("10".data) ++ ('.' :: (("0".data) ++ ('.' :: (("0".data) ++ (".xxx".data))))) ∧
      anonymizeIP (anonymizeIP ("2001:db8:85a3:8d3".data)) =
        anonymizeIP ("2001:db8:85a3:8d3".data) :=
  ⟨claim_C6_anonymizeIP_behaviour.2.1 _ _ _ _ (by decide) (by decide) (by decide) (by decide),
    claim_C6_anonymizeIP_behaviour.2.2.2.2 _ (Or.inl (by decide))⟩

/-! ## Claim C7 -/

/-- C7: any user agent containing `"googlebot"` in any letter casing, with
arbitrary text before and after, is classified as a bot. -/
theorem claim_C7_googlebot_is_bot (pre mid post : List Char)
    (h : lowerStr mid = ("googlebot".data)) :
    isBot (pre ++ (mid ++ post)) = true := by
  have hmid : mid ≠ [] := by
    intro hm
    rw [hm] at h
    exact absurd h (by decide)
  have hne : pre ++ (mid ++ post) ≠ [] := by
    intro hnil
    exact hmid (List.append_eq_nil.mp (List.append_eq_nil.mp hnil).2).1
  unfold isBot
  rw [if_neg hne]
  apply List.any_eq_true.mpr
  refine ⟨("googlebot".data), ?_, ?_⟩
  · simp [botPatterns]
  · show containsL (lowerStr (pre ++ (mid ++ post))) ("googlebot".data) = true
    have hmap : lowerStr (pre ++ (mid ++ post)) =
        lowerStr pre ++ (("googlebot".data) ++ lowerStr post) := by
      have h' : List.map Char.toLower mid = ("googlebot".data) := h
      simp only [lowerStr, List.map_append, h']
    rw [hmap]
    exact containsL_append_middle _ _ _

/-- C7 witness: `"Mozilla/5.0 GoOgLeBot/2.1"` with mixed casing and
surrounding text is a bot. -/
theorem claim_C7_witness :
    isBot (("Mozilla/5.0 ".data) ++ (("GoOgLeBot".data) ++ ("/2.1".data))) = true :=
  claim_C7_googlebot_is_bot _ _ _ (by decide)

/-! ## Claim C8 -/

/-- C8: the classification functions are total: for every input (the empty
string modelling a missing header) each returns one of its fixed
classification values, with the patterns applied in the priority order of
the source; the empty input gives `"Unknown"`/`"unknown"`/`"direct"`, and
when no pattern matches the defaults are `"Other"`, `"Other"`, `"desktop"`
and `"direct"` (the last also on any referrer the URL parser rejects). -/
theorem claim_C8_classifiers_total :
    (∀ ua : List Char, detectBrowser ua ∈
        [("Unknown".data), ("Edge".data), ("Opera".data), ("Chrome".data),
          ("Safari".data), ("Firefox".data), ("IE".data), ("Other".data)]) ∧
      (∀ ua : List Char, detectOS ua ∈
        [("Unknown".data), ("Windows 10/11".data), ("Windows".data), ("macOS".data),
          ("iOS".data), ("iPadOS".data), ("Android".data), ("Linux".data),
          ("ChromeOS".data), ("Other".data)]) ∧
      (∀ ua : List Char, detectDevice ua ∈
        [("unknown".data), ("mobile".data), ("tablet".data), ("desktop".data)]) ∧
      (∀ ref : List Char, cleanReferrer ref = ("direct".data) ∨
        cleanReferrer ref = ("internal".data) ∨
        ∃ h : List Char, urlHostname ref = some h ∧
          cleanReferrer ref = replaceFirstL h ("www.".data)) ∧
      (detectBrowser [] = ("Unknown".data) ∧ detectOS [] = ("Unknown".data) ∧
        detectDevice [] = ("unknown".data) ∧ cleanReferrer [] = ("direct".data)) ∧
      (∀ ua : List Char, ua ≠ [] →
        testCI ua ("edg".data) = false → testCI ua ("opr".data) = false →
        testCI ua ("opera".data) = false → testCI ua ("chrome".data) = false →
        testCI ua ("safari".data) = false → testCI ua ("firefox".data) = false →
        testCI ua ("msie".data) = false → testCI ua ("trident".data) = false →
        detectBrowser ua = ("Other".data)) ∧
      (∀ ua : List Char, ua ≠ [] →
        testCI ua ("windows nt 10".data) = false → testCI ua ("windows".data) = false →
        testCI ua ("macintosh".data) = false → testCI ua ("mac os x".data) = false →
        testCI ua ("iphone".data) = false → testCI ua ("ipad".data) = false →
        testCI ua ("android".data) = false → testCI ua ("linux".data) = false →
        testCI ua ("cros".data) = false →
        detectOS ua = ("Other".data)) ∧
      (∀ ua : List Char, ua ≠ [] →
        testCI ua ("mobile".data) = false →
        containsThenL (lowerStr ua) ("android".data) ("mobile".data) = false →
        testCI ua ("iphone".data) = false → testCI ua ("ipad".data) = false →
        testCI ua ("tablet".data) = false →
        androidNoMobileAfter (lowerStr ua) = false →
        detectDevice ua = ("desktop".data)) ∧
      (∀ ref : List Char, urlHostname ref = none → cleanReferrer ref = ("direct".data)) := by
  refine ⟨?_, ?_, ?_, ?_, ?_, ?_, ?_, ?_, ?_⟩
  · intro ua
    unfold detectBrowser
    split_ifs <;> decide
  · intro ua
    unfold detectOS
    split_ifs <;> decide
  · intro ua
    unfold detectDevice
    split_ifs <;> decide
  · intro ref
    unfold cleanReferrer
    by_cases href : ref = []
    · rw [if_pos href]
      exact Or.inl rfl
    rw [if_neg href]
    rcases hu : urlHostname ref with _ | host
    · exact Or.inl rfl
    by_cases hin : containsL host ("allgood.click".data) = true
    · refine Or.inr (Or.inl ?_)
      simp [hin]
    · refine Or.inr (Or.inr ⟨host, rfl, ?_⟩)
      simp [hin]
  · refine ⟨rfl, rfl, rfl, rfl⟩
  · intro ua hne h1 h2 h3 h4 h5 h6 h7 h8
    simp [detectBrowser, hne, h1, h2, h3, h4, h5, h6, h7, h8]
  · intro ua hne h1 h2 h3 h4 h5 h6 h7 h8 h9
    simp [detectOS, hne, h1, h2, h3, h4, h5, h6, h7, h8, h9]
  · intro ua hne h1 h2 h3 h4 h5 h6
    simp [detectDevice, hne, h1, h2, h3, h4, h5, h6]
  · intro ref hu
    unfold cleanReferrer
    by_cases href : ref = []
    · rw [if_pos href]
    · rw [if_neg href, hu]

/-- C8 witness: on the pattern-free user agent `"hello"` the browser
default is `"Other"` and the device default is `"desktop"`; the
unparseable referrer `"nonsense"` gives `"direct"`. -/
theorem claim_C8_witness :
    detectBrowser ("hello".data) = ("Other".data) ∧
      detectDevice ("hello".data) = ("desktop".data) ∧
      cleanReferrer ("nonsense".data) = ("direct".data) :=
  ⟨claim_C8_classifiers_total.2.2.2.2.2.1 _ (by decide) (by decide) (by decide)
      (by decide) (by decide) (by decide) (by decide) (by decide) (by decide),
    claim_C8_classifiers_total.2.2.2.2.2.2.2.1 _ (by decide) (by decide) (by decide)
      (by decide) (by decide) (by decide) (by decide),
    claim_C8_classifiers_total.2.2.2.2.2.2.2.2 _ (by decide)⟩

/-! ## Claim C9 -/

/-- C9: the store operations preserve the append-only discipline.
`trackPageview` appends exactly one new row, leaving the existing rows as
an unchanged prefix; `getStats` returns the store unmodified; and
`cleanupOldData` keeps a row exactly when it is in the store and its
timestamp is not strictly older than the cutoff `now - keepDays`, the kept
rows forming a sublist of the store (so no row is ever updated). -/
theorem claim_C9_store_append_only (store : List Pageview) (req : TrackRequest)
    (page : List Char) (now days keepDays : ℤ) :
    ((trackPageviewOp store req page now).1 = store ++ [mkPageview req page now] ∧
        store <+: (trackPageviewOp store req page now).1) ∧
      (getStatsOp store days now).1 = store ∧
      ((∀ r : Pageview, r ∈ (cleanupOldDataOp store keepDays now).1 ↔
          r ∈ store ∧ ¬(r.timestamp < now - keepDays)) ∧
        List.Sublist ((cleanupOldDataOp store keepDays now).1) store) := by
  refine ⟨⟨rfl, ⟨[mkPageview req page now], rfl⟩⟩, rfl, ?_, ?_⟩
  · intro r
    simp [cleanupOldDataOp, List.mem_filter]
  · exact List.filter_sublist store

/-- C9 witness: in a two-row store, a cleanup at time 100 with a 90-day
retention keeps the row stamped 100, and `getStats` leaves the store
untouched. -/
theorem claim_C9_witness :
    rowNew ∈ (cleanupOldDataOp [rowOld, rowNew] 90 100).1 ∧
      (getStatsOp [rowOld, rowNew] 30 100).1 = [rowOld, rowNew] :=
  ⟨((claim_C9_store_append_only [rowOld, rowNew] reqW [] 100 30 90).2.2.1 rowNew).mpr
      ⟨by simp, by decide⟩,
    (claim_C9_store_append_only [rowOld, rowNew] reqW [] 100 30 90).2.1⟩

/-! ## Claim C10 -/

/-- C10: every output of `anonymizeIP` is either the literal `"unknown"`
or ends in `"xxx"`; moreover the output on a four-part dotted input does
not depend on the last octet, and the output on a dot-free colon-separated
input with at least four parts does not depend on anything past the third
hextet — the dropped data never reaches the output. -/
theorem claim_C10_anonymizeIP_shape :
    (∀ s : List Char, anonymizeIP s = ("unknown".data) ∨
        ∃ t : List Char, anonymizeIP s = t ++ ("xxx".data)) ∧
      (∀ p0 p1 p2 a b : List Char, '.' ∉ p0 → '.' ∉ p1 → '.' ∉ p2 → '.' ∉ a → '.' ∉ b →
        anonymizeIP (p0 ++ ('.' :: (p1 ++ ('.' :: (p2 ++ ('.' :: a)))))) =
          anonymizeIP (p0 ++ ('.' :: (p1 ++ ('.' :: (p2 ++ ('.' :: b))))))) ∧
      (∀ q0 q1 q2 r1 r2 : List Char, ':' ∉ q0 → ':' ∉ q1 → ':' ∉ q2 →
        '.' ∉ q0 → '.' ∉ q1 → '.' ∉ q2 → '.' ∉ r1 → '.' ∉ r2 →
        anonymizeIP (q0 ++ (':' :: (q1 ++ (':' :: (q2 ++ (':' :: r1)))))) =
          anonymizeIP (q0 ++ (':' :: (q1 ++ (':' :: (q2 ++ (':' :: r2))))))) := by
  refine ⟨?_, ?_, ?_⟩
  · intro s
    by_cases h1 : s = []
    · subst h1
      exact Or.inl (by decide)
    by_cases h2 : (splitOnChar '.' s).length = 4
    · refine Or.inr ⟨(splitOnChar '.' s).getD 0 [] ++
        ('.' :: ((splitOnChar '.' s).getD 1 [] ++
          ('.' :: ((splitOnChar '.' s).getD 2 [] ++ (['.']))))), ?_⟩
      simp only [anonymizeIP, if_neg h1, if_pos h2]
      simp [List.append_assoc]
    by_cases h3 : (splitOnChar ':' s).length > 3
    · refine Or.inr ⟨List.intercalate [':'] ((splitOnChar ':' s).take 3) ++ [':', ':'], ?_⟩
      simp only [anonymizeIP, if_neg h1, if_neg h2, if_pos h3]
      simp [List.append_assoc]
    · exact Or.inl (anonymizeIP_fallback h1 h2 h3)
  · intro p0 p1 p2 a b h0 h1 h2 ha hb
    rw [anonymizeIP_quad h0 h1 h2 ha, anonymizeIP_quad h0 h1 h2 hb]
  · intro q0 q1 q2 r1 r2 h1 h2 h3 h4 h5 h6 h7 h8
    rw [anonymizeIP_v6 h1 h2 h3 h4 h5 h6 h7, anonymizeIP_v6 h1 h2 h3 h4 h5 h6 h8]

/-- C10 witness: the two anonymizations of `"9.8.7.111"` and `"9.8.7.222"`
coincide — the last octet does not reach the output. -/
theorem claim_C10_witness :
    anonymizeIP (("9".data) ++ ('.' :: (("8".data) ++ ('.' :: (("7".data) ++
        ('.' :: ("111".data))))))) =
      anonymizeIP (("9".data) ++ ('.' :: (("8".data) ++ ('.' :: (("7".data) ++
        ('.' :: ("222".data))))))) :=
  claim_C10_anonymizeIP_shape.2.1 _ _ _ _ _ (by decide) (by decide) (by decide)
    (by decide) (by decide)
